import Mathlib

/-!
Shallow embedding of the go-hotkey repository (package hotkey, Windows
backend).  The definitions below are translated from hotkey.go and win.go:
the hotkey-string normalization getHkInfo, the key table keyCodeWin, the
package-level registry operations Register / Unregister over the global
map registeredHotkey, the handle-level register / unregister methods, and
the event-loop worker (message pump, edge detector and release-poll
sub-tasks).  External effects (the win.RegisterHotKey / UnregisterHotKey /
PeekMessage / GetMessage / GetAsyncKeyState calls and channel scheduling)
are modelled as explicit parameters or events.
-/

namespace GoHotkey

/-- Models Go strings.Split for a one-character separator.  The package
variable splitStr holds its default value, the single character "_".
As in Go, splitting the empty string yields [""] and every occurrence of
the separator opens a new field, so the result is never the empty list. -/
def splitChar (sep : Char) : List Char → List (List Char)
  | [] => [[]]
  | c :: rest =>
    let r := splitChar sep rest
    if c = sep then [] :: r
    else
      match r with
      | [] => [[c]]
      | h :: t => (c :: h) :: t

/-- strings.Split(hkStr, splitStr) at the default separator splitStr = "_". -/
def goSplit (s : String) : List String :=
  (splitChar '_' s.toList).map fun l => String.mk l

/-- The four-slot array k0 := [4]string{} used by getHkInfo; slot order is
win, ctrl, shift, alt. -/
structure K0 where
  w : String
  c : String
  s : String
  a : String
  deriving DecidableEq

def k0Init : K0 := ⟨"", "", "", ""⟩

/-- strings.Join(k0[:], "") from getHkInfo. -/
def k0Join (k : K0) : String := k.w ++ k.c ++ k.s ++ k.a

/-- One iteration of the shorthand loop of getHkInfo (hkLen == 2): each
character of the first component sets its fixed slot. -/
def shortStep (k : K0) (v : Char) : K0 :=
  if v = 'w' then { k with w := "w" }
  else if v = 'c' then { k with c := "c" }
  else if v = 's' then { k with s := "s" }
  else if v = 'a' then { k with a := "a" }
  else k

/-- One iteration of the long-form loop of getHkInfo: a recognized modifier
token sets its fixed slot, any other token overwrites the key name. -/
def longStep (st : K0 × String) (v : String) : K0 × String :=
  if v = "win" then ({ st.1 with w := "w" }, st.2)
  else if v = "ctrl" then ({ st.1 with c := "c" }, st.2)
  else if v = "shift" then ({ st.1 with s := "s" }, st.2)
  else if v = "alt" then ({ st.1 with a := "a" }, st.2)
  else (st.1, v)

/-- The (modifierSort, keyName) part of getHkInfo computed on the token
list hkList: the two-token form is the shorthand (e.g. "csa_a"), any other
length is the long form scanning whole tokens. -/
def hkTokensInfo (hkList : List String) : String × String :=
  if hkList.length = 2 then
    let keyName := hkList.getD 1 ""
    let k0 := (hkList.getD 0 "").toList.foldl shortStep k0Init
    (k0Join k0, keyName)
  else
    let p := hkList.foldl longStep (k0Init, "")
    (k0Join p.1, p.2)

/-- getHkInfo from hotkey.go: splits hkStr on the separator, extracts
(modifierSort, keyName), and defaults the signal to "down" unless the
signal argument is "up" or "press".  The hkLen == 0 early return of the
source is kept although goSplit never produces an empty list. -/
def getHkInfo (hkStr signalStr : String) : String × String × String :=
  let hkList := goSplit hkStr
  if hkList.length = 0 then ("", "", "")
  else
    let p := hkTokensInfo hkList
    let signal := if signalStr = "up" ∨ signalStr = "press" then signalStr else "down"
    (p.1, p.2, signal)

theorem splitChar_ne_nil (sep : Char) (s : List Char) : splitChar sep s ≠ [] := by
  induction s with
  | nil => simp [splitChar]
  | cons c rest ih =>
    unfold splitChar
    split
    · simp
    · cases h : splitChar sep rest with
      | nil => exact absurd h ih
      | cons hd tl => simp [h]

theorem goSplit_ne_nil (s : String) : goSplit s ≠ [] := by
  unfold goSplit
  simp only [ne_eq, List.map_eq_nil_iff]
  exact splitChar_ne_nil '_' s.toList

theorem longStep_w (st : K0 × String) (v : String) :
    (longStep st v).1.w = if v = "win" then "w" else st.1.w := by
  unfold longStep; split_ifs <;> simp_all

theorem longStep_c (st : K0 × String) (v : String) :
    (longStep st v).1.c = if v = "ctrl" then "c" else st.1.c := by
  unfold longStep; split_ifs <;> simp_all

theorem longStep_s (st : K0 × String) (v : String) :
    (longStep st v).1.s = if v = "shift" then "s" else st.1.s := by
  unfold longStep; split_ifs <;> simp_all

theorem longStep_a (st : K0 × String) (v : String) :
    (longStep st v).1.a = if v = "alt" then "a" else st.1.a := by
  unfold longStep; split_ifs <;> simp_all

theorem foldl_longStep_w (l : List String) (st : K0 × String) :
    (l.foldl longStep st).1.w = if "win" ∈ l then "w" else st.1.w := by
  induction l generalizing st with
  | nil => simp
  | cons v t ih =>
    rw [List.foldl_cons, ih, longStep_w]
    by_cases hv : v = "win" <;> by_cases ht : "win" ∈ t <;> simp [hv, ht, eq_comm]

theorem foldl_longStep_c (l : List String) (st : K0 × String) :
    (l.foldl longStep st).1.c = if "ctrl" ∈ l then "c" else st.1.c := by
  induction l generalizing st with
  | nil => simp
  | cons v t ih =>
    rw [List.foldl_cons, ih, longStep_c]
    by_cases hv : v = "ctrl" <;> by_cases ht : "ctrl" ∈ t <;> simp [hv, ht, eq_comm]

theorem foldl_longStep_s (l : List String) (st : K0 × String) :
    (l.foldl longStep st).1.s = if "shift" ∈ l then "s" else st.1.s := by
  induction l generalizing st with
  | nil => simp
  | cons v t ih =>
    rw [List.foldl_cons, ih, longStep_s]
    by_cases hv : v = "shift" <;> by_cases ht : "shift" ∈ t <;> simp [hv, ht, eq_comm]

theorem foldl_longStep_a (l : List String) (st : K0 × String) :
    (l.foldl longStep st).1.a = if "alt" ∈ l then "a" else st.1.a := by
  induction l generalizing st with
  | nil => simp
  | cons v t ih =>
    rw [List.foldl_cons, ih, longStep_a]
    by_cases hv : v = "alt" <;> by_cases ht : "alt" ∈ t <;> simp [hv, ht, eq_comm]

theorem shortStep_w (k : K0) (v : Char) :
    (shortStep k v).w = if v = 'w' then "w" else k.w := by
  unfold shortStep; split_ifs <;> simp_all

theorem shortStep_c (k : K0) (v : Char) :
    (shortStep k v).c = if v = 'c' then "c" else k.c := by
  unfold shortStep; split_ifs <;> simp_all

theorem shortStep_s (k : K0) (v : Char) :
    (shortStep k v).s = if v = 's' then "s" else k.s := by
  unfold shortStep; split_ifs <;> simp_all

theorem shortStep_a (k : K0) (v : Char) :
    (shortStep k v).a = if v = 'a' then "a" else k.a := by
  unfold shortStep; split_ifs <;> simp_all

theorem foldl_shortStep_w (cs : List Char) (k : K0) :
    (cs.foldl shortStep k).w = if 'w' ∈ cs then "w" else k.w := by
  induction cs generalizing k with
  | nil => simp
  | cons v t ih =>
    rw [List.foldl_cons, ih, shortStep_w]
    by_cases hv : v = 'w' <;> by_cases ht : 'w' ∈ t <;> simp [hv, ht, eq_comm]

theorem foldl_shortStep_c (cs : List Char) (k : K0) :
    (cs.foldl shortStep k).c = if 'c' ∈ cs then "c" else k.c := by
  induction cs generalizing k with
  | nil => simp
  | cons v t ih =>
    rw [List.foldl_cons, ih, shortStep_c]
    by_cases hv : v = 'c' <;> by_cases ht : 'c' ∈ t <;> simp [hv, ht, eq_comm]

theorem foldl_shortStep_s (cs : List Char) (k : K0) :
    (cs.foldl shortStep k).s = if 's' ∈ cs then "s" else k.s := by
  induction cs generalizing k with
  | nil => simp
  | cons v t ih =>
    rw [List.foldl_cons, ih, shortStep_s]
    by_cases hv : v = 's' <;> by_cases ht : 's' ∈ t <;> simp [hv, ht, eq_comm]

theorem foldl_shortStep_a (cs : List Char) (k : K0) :
    (cs.foldl shortStep k).a = if 'a' ∈ cs then "a" else k.a := by
  induction cs generalizing k with
  | nil => simp
  | cons v t ih =>
    rw [List.foldl_cons, ih, shortStep_a]
    by_cases hv : v = 'a' <;> by_cases ht : 'a' ∈ t <;> simp [hv, ht, eq_comm]

/-- The canonical presence string for the four modifier slots. -/
def canonicalOf (hasW hasC hasS hasA : Bool) : String :=
  (if hasW then "w" else "") ++ (if hasC then "c" else "") ++
    (if hasS then "s" else "") ++ (if hasA then "a" else "")

theorem hkTokensInfo_long_canonical (l : List String) (h : l.length ≠ 2) :
    (hkTokensInfo l).1 =
      canonicalOf ("win" ∈ l) ("ctrl" ∈ l) ("shift" ∈ l) ("alt" ∈ l) := by
  unfold hkTokensInfo
  rw [if_neg h]
  show k0Join (l.foldl longStep (k0Init, "")).1 = _
  rw [k0Join, foldl_longStep_w, foldl_longStep_c, foldl_longStep_s, foldl_longStep_a]
  simp only [canonicalOf, k0Init]
  by_cases h1 : "win" ∈ l <;> by_cases h2 : "ctrl" ∈ l <;>
    by_cases h3 : "shift" ∈ l <;> by_cases h4 : "alt" ∈ l <;> simp [h1, h2, h3, h4]

theorem hkTokensInfo_short_canonical (l : List String) (h : l.length = 2) :
    (hkTokensInfo l).1 =
      canonicalOf ('w' ∈ (l.getD 0 "").toList) ('c' ∈ (l.getD 0 "").toList)
        ('s' ∈ (l.getD 0 "").toList) ('a' ∈ (l.getD 0 "").toList) := by
  unfold hkTokensInfo
  rw [if_pos h]
  show k0Join ((l.getD 0 "").toList.foldl shortStep k0Init) = _
  rw [k0Join, foldl_shortStep_w, foldl_shortStep_c, foldl_shortStep_s, foldl_shortStep_a]
  simp only [canonicalOf, k0Init]
  by_cases h1 : 'w' ∈ (l.getD 0 "").toList <;> by_cases h2 : 'c' ∈ (l.getD 0 "").toList <;>
    by_cases h3 : 's' ∈ (l.getD 0 "").toList <;> by_cases h4 : 'a' ∈ (l.getD 0 "").toList <;>
    simp [h1, h2, h3, h4]

theorem canonical_perm (l1 l2 : List String) (hp : l1.Perm l2) :
    canonicalOf ("win" ∈ l1) ("ctrl" ∈ l1) ("shift" ∈ l1) ("alt" ∈ l1) =
      canonicalOf ("win" ∈ l2) ("ctrl" ∈ l2) ("shift" ∈ l2) ("alt" ∈ l2) := by
  simp [hp.mem_iff]

theorem canonical_perm_chars (cs1 cs2 : List Char) (hp : cs1.Perm cs2) :
    canonicalOf ('w' ∈ cs1) ('c' ∈ cs1) ('s' ∈ cs1) ('a' ∈ cs1) =
      canonicalOf ('w' ∈ cs2) ('c' ∈ cs2) ('s' ∈ cs2) ('a' ∈ cs2) := by
  simp [hp.mem_iff]

/-- Claim C10 (counterexample): the inputs "win_ctrl" and "ctrl_win" hold the
same modifier tokens win and ctrl, merely permuted, yet getHkInfo emits the
modifierSort "w" for the first and "c" for the second: a two-token input is
parsed as the shorthand form, in which only the characters of the first
token are scanned for modifiers.  So getHkInfo is not order-insensitive in
the modifier tokens for every input hotkey string, refuting the claim as
stated. -/
theorem c10_counterexample :
    (getHkInfo "win_ctrl" "").1 = "w" ∧ (getHkInfo "ctrl_win" "").1 = "c" ∧
      (getHkInfo "win_ctrl" "").1 ≠ (getHkInfo "ctrl_win" "").1 := by
  decide

/-- Claim C10 (amended): getHkInfo always emits the recognized modifiers in
the fixed order win, ctrl, shift, alt, and it is order- and
repetition-insensitive within each parsing mode: when the input splits into
a number of tokens other than two (the long form), modifierSort is the
canonical presence string of the recognized tokens — hence invariant under
any permutation or repetition of the token list; when the input splits into
exactly two tokens (the shorthand form), modifierSort is the canonical
presence string of the characters of the first token — hence in the fixed
order and insensitive to the order and repetition of those characters —
but exchanging the two tokens themselves can change the result.  The
returned signal is "down" whenever the signal argument is neither "up" nor
"press". -/
theorem c10_amended :
    (∀ l : List String, l.length ≠ 2 →
      (hkTokensInfo l).1 = canonicalOf ("win" ∈ l) ("ctrl" ∈ l) ("shift" ∈ l) ("alt" ∈ l)) ∧
    (∀ l : List String, l.length = 2 →
      (hkTokensInfo l).1 =
        canonicalOf ('w' ∈ (l.getD 0 "").toList) ('c' ∈ (l.getD 0 "").toList)
          ('s' ∈ (l.getD 0 "").toList) ('a' ∈ (l.getD 0 "").toList)) ∧
    (∀ l1 l2 : List String, l1.Perm l2 → l1.length ≠ 2 →
      (hkTokensInfo l1).1 = (hkTokensInfo l2).1) ∧
    (∀ l1 l2 : List String, l1.length = 2 → l2.length = 2 →
      ((l1.getD 0 "").toList).Perm ((l2.getD 0 "").toList) →
      (hkTokensInfo l1).1 = (hkTokensInfo l2).1) ∧
    (∀ hkStr signalStr : String,
      (getHkInfo hkStr signalStr).1 = (hkTokensInfo (goSplit hkStr)).1) ∧
    (∀ hkStr signalStr : String, signalStr ≠ "up" → signalStr ≠ "press" →
      (getHkInfo hkStr signalStr).2.2 = "down") := by
  have hlen : ∀ s : String, ¬(goSplit s).length = 0 := by
    intro s hs
    exact goSplit_ne_nil s (List.length_eq_zero.mp hs)
  refine ⟨hkTokensInfo_long_canonical, hkTokensInfo_short_canonical, ?_, ?_, ?_, ?_⟩
  · intro l1 l2 hp h1
    have h2 : l2.length ≠ 2 := by rw [← hp.length_eq]; exact h1
    rw [hkTokensInfo_long_canonical l1 h1, hkTokensInfo_long_canonical l2 h2]
    exact canonical_perm l1 l2 hp
  · intro l1 l2 h1 h2 hp
    rw [hkTokensInfo_short_canonical l1 h1, hkTokensInfo_short_canonical l2 h2]
    exact canonical_perm_chars _ _ hp
  · intro hkStr signalStr
    unfold getHkInfo
    rw [if_neg (hlen hkStr)]
  · intro hkStr signalStr h1 h2
    unfold getHkInfo
    rw [if_neg (hlen hkStr)]
    simp [h1, h2]

/-- Witness for the amended C10 theorem at concrete inputs: permuting the
modifier tokens of the three-token input preserves modifierSort, the
shorthand two-token input gets the canonical presence string of the first
token's characters, and an unrecognized signal argument yields "down". -/
theorem c10_amended_witness :
    (hkTokensInfo ["ctrl", "shift", "z"]).1 = (hkTokensInfo ["shift", "ctrl", "z"]).1 ∧
      (hkTokensInfo ["wc", "z"]).1 =
        canonicalOf ('w' ∈ (["wc", "z"].getD 0 "").toList)
          ('c' ∈ (["wc", "z"].getD 0 "").toList) ('s' ∈ (["wc", "z"].getD 0 "").toList)
          ('a' ∈ (["wc", "z"].getD 0 "").toList) ∧
      (getHkInfo "ctrl_shift_z" "x").2.2 = "down" := by
  refine ⟨?_, ?_, ?_⟩
  · exact c10_amended.2.2.1 ["ctrl", "shift", "z"] ["shift", "ctrl", "z"]
      (List.Perm.swap "shift" "ctrl" ["z"]) (by decide)
  · exact c10_amended.2.1 ["wc", "z"] rfl
  · exact c10_amended.2.2.2.2.2 "ctrl_shift_z" "x" (by decide) (by decide)

/-! ## Registry and handle lifecycle (hotkey.go, win.go) -/

/-- The Modifier constants of the Windows backend. -/
def ModAlt : Nat := 0x1

def ModCtrl : Nat := 0x2

def ModShift : Nat := 0x4

def ModWin : Nat := 0x8

/-- The keyCodeWin lookup table; a missing key name is the map-miss case of
`keyCode, ok := keyCodeWin[keyName]`. -/
def keyCodeWin (k : String) : Option Nat :=
  match k with
  | "space" => some 0x20
  | "0" => some 0x30
  | "1" => some 0x31
  | "2" => some 0x32
  | "3" => some 0x33
  | "4" => some 0x34
  | "5" => some 0x35
  | "6" => some 0x36
  | "7" => some 0x37
  | "8" => some 0x38
  | "9" => some 0x39
  | "a" => some 0x41
  | "b" => some 0x42
  | "c" => some 0x43
  | "d" => some 0x44
  | "e" => some 0x45
  | "f" => some 0x46
  | "g" => some 0x47
  | "h" => some 0x48
  | "i" => some 0x49
  | "j" => some 0x4A
  | "k" => some 0x4B
  | "l" => some 0x4C
  | "m" => some 0x4D
  | "n" => some 0x4E
  | "o" => some 0x4F
  | "p" => some 0x50
  | "q" => some 0x51
  | "r" => some 0x52
  | "s" => some 0x53
  | "t" => some 0x54
  | "u" => some 0x55
  | "v" => some 0x56
  | "w" => some 0x57
  | "x" => some 0x58
  | "y" => some 0x59
  | "z" => some 0x5A
  | "return" => some 0x0D
  | "escape" => some 0x1B
  | "esc" => some 0x1B
  | "delete" => some 0x2E
  | "tab" => some 0x09
  | "left" => some 0x25
  | "right" => some 0x27
  | "up" => some 0x26
  | "down" => some 0x28
  | "f1" => some 0x70
  | "f2" => some 0x71
  | "f3" => some 0x72
  | "f4" => some 0x73
  | "f5" => some 0x74
  | "f6" => some 0x75
  | "f7" => some 0x76
  | "f8" => some 0x77
  | "f9" => some 0x78
  | "f10" => some 0x79
  | "f11" => some 0x7A
  | "f12" => some 0x7B
  | "f13" => some 0x7C
  | "f14" => some 0x7D
  | "f15" => some 0x7E
  | "f16" => some 0x7F
  | "f17" => some 0x80
  | "f18" => some 0x81
  | "f19" => some 0x82
  | "f20" => some 0x83
  | _ => none

/-- getModifier from hotkey.go: maps each character of the sorted modifier
string to its Modifier constant. -/
def getModifier (modifier : String) : List Nat :=
  modifier.toList.foldl
    (fun mod v =>
      if v = 'w' then mod ++ [ModWin]
      else if v = 'c' then mod ++ [ModCtrl]
      else if v = 's' then mod ++ [ModShift]
      else if v = 'a' then mod ++ [ModAlt]
      else mod) []

/-- The Go errors produced by the registry and handle operations.  osError
stands for the error value returned by win.RegisterHotKey when the OS-level
registration attempt fails. -/
inductive GoError where
  | keyError
  | alreadyRegistered
  | notRegistered
  | osError
  deriving DecidableEq

/-- A Hotkey value together with its platformHotkey fields.  The funcs
channel is modelled by direct execution of the injected closures; the
canceled channel is modelled by the Boolean canceled (true once closed).
Callbacks is modelled by its length nCallbacks, the only aspect the engine
inspects at the registry level. -/
structure HK where
  hotkeyId : Nat
  registered : Bool
  canceled : Bool
  signal : String
  key : Nat
  mods : List Nat
  nCallbacks : Nat
  deriving DecidableEq

/-- The process-wide mutable state: the registeredHotkey map and the global
hotkeyId counter. -/
structure GState where
  registeredHotkey : List (String × HK)
  hotkeyId : Nat
  deriving DecidableEq

/-- Go map assignment m[k] = v (replaces any previous binding). -/
def mapInsert (m : List (String × HK)) (k : String) (v : HK) : List (String × HK) :=
  (k, v) :: m.filter fun p => p.1 ≠ k

/-- Go map lookup m[k]. -/
def mapLookup (m : List (String × HK)) (k : String) : Option HK :=
  (m.find? fun p => p.1 == k).map fun p => p.2

/-- Go delete(m, k). -/
def mapDelete (m : List (String × HK)) (k : String) : List (String × HK) :=
  m.filter fun p => p.1 ≠ k

/-- The handle-level register method of win.go.  nextId is the current
value of the global hotkeyId counter; osOk is the Boolean result of the
injected win.RegisterHotKey call (executed on the worker)..  Returns the
updated handle, the updated counter, and the error result. -/
def HK.register (hk : HK) (nextId : Nat) (osOk : Bool) : HK × Nat × Option GoError :=
  if hk.registered then (hk, nextId, some GoError.alreadyRegistered)
  else
    let newId := nextId + 1
    let hk1 : HK := { hk with hotkeyId := newId, canceled := false }
    if osOk then ({ hk1 with registered := true }, newId, none)
    else ({ hk1 with canceled := true }, newId, some GoError.osError)

/-- The handle-level unregister method of win.go.  osHeld is what the
win.UnregisterHotKey call would report about the hotkey being held; the
source discards that report, so the parameter is unused: the only error
comes from the handle's own registered flag. -/
def HK.unregister (hk : HK) (osHeld : Bool) : HK × Option GoError :=
  if !hk.registered then (hk, some GoError.notRegistered)
  else ({ hk with canceled := true, registered := false }, none)

/-- The normalized registry key modifierSort + keyName + signal computed by
Register and Unregister. -/
def hkKey (modifier key : String) : String :=
  (getHkInfo modifier key).1 ++ (getHkInfo modifier key).2.1 ++ (getHkInfo modifier key).2.2

/-- The package-level Register of hotkey.go.  nCallbacks is the length of
the variadic callbacks argument; osOk the outcome of the OS registration
attempt.  The map entry is written before hk.register() runs, and because
the map stores a pointer, the entry reflects the handle mutations made by
hk.register(); the second mapInsert models that aliasing. -/
def Register (st : GState) (modifier key : String) (nCallbacks : Nat) (osOk : Bool) :
    GState × Option GoError :=
  let info := getHkInfo modifier key
  match keyCodeWin info.2.1 with
  | none => (st, some GoError.keyError)
  | some keyCode =>
    let hk : HK :=
      { hotkeyId := 0, registered := false, canceled := false, signal := info.2.2,
        key := keyCode, mods := getModifier info.1, nCallbacks := nCallbacks }
    let k := info.1 ++ info.2.1 ++ info.2.2
    let m1 := mapInsert st.registeredHotkey k hk
    let r := HK.register hk st.hotkeyId osOk
    match r.2.2 with
    | some e => ({ registeredHotkey := mapInsert m1 k r.1, hotkeyId := r.2.1 }, some e)
    | none => ({ registeredHotkey := mapInsert m1 k r.1, hotkeyId := r.2.1 }, none)

/-- The package-level Unregister of hotkey.go: a missing entry is a
success; otherwise hk.unregister() runs and the entry is deleted only when
it succeeds. -/
def Unregister (st : GState) (modifier key : String) (osHeld : Bool) :
    GState × Option GoError :=
  let k := hkKey modifier key
  match mapLookup st.registeredHotkey k with
  | none => (st, none)
  | some hk =>
    let r := HK.unregister hk osHeld
    match r.2 with
    | some e => ({ st with registeredHotkey := mapInsert st.registeredHotkey k r.1 }, some e)
    | none =>
      ({ st with registeredHotkey := mapDelete (mapInsert st.registeredHotkey k r.1) k }, none)

/-- The initial process state: empty registry, counter at zero. -/
def st0 : GState := { registeredHotkey := [], hotkeyId := 0 }

theorem mapLookup_insert (m : List (String × HK)) (k : String) (v : HK) :
    mapLookup (mapInsert m k v) k = some v := by
  simp [mapLookup, mapInsert, List.find?_cons_of_pos]

/-- Claim C2 (counterexample): registering the identity of "cs_z" twice
with no intervening Unregister never yields a registry-level duplicate
error: when the second OS attempt is accepted the second call returns no
error at all, and when it is refused the call returns the OS error.  In
both cases the registry entry is replaced by the second handle — its
registration id is 2 where the first handle held id 1 — refuting both
halves of the claim. -/
theorem c2_counterexample :
    (Register (Register st0 "cs_z" "" 1 true).1 "cs_z" "" 1 true).2 = none ∧
      (Register (Register st0 "cs_z" "" 1 true).1 "cs_z" "" 1 false).2 = some GoError.osError ∧
      (mapLookup (Register st0 "cs_z" "" 1 true).1.registeredHotkey "cszdown").map
          HK.hotkeyId = some 1 ∧
      (mapLookup (Register (Register st0 "cs_z" "" 1 true).1 "cs_z" "" 1 true).1.registeredHotkey
          "cszdown").map HK.hotkeyId = some 2 ∧
      (mapLookup (Register (Register st0 "cs_z" "" 1 true).1 "cs_z" "" 1 false).1.registeredHotkey
          "cszdown").map HK.hotkeyId = some 2 := by
  decide

/-- Claim C2 (amended): Register performs no registry-level duplicate
check: its error result is independent of the current registry contents
(a second registration of the same identity behaves exactly like a first
one; no DuplicateRegistration error exists), and whenever the key name is
valid it unconditionally replaces the registry entry for the normalized
identity with the newly created handle, which carries the incremented
registration id; the call succeeds exactly when the OS attempt does. -/
theorem c2_amended (st1 st2 : GState) (modifier key : String) (n : Nat) (osOk : Bool) :
    (Register st1 modifier key n osOk).2 = (Register st2 modifier key n osOk).2 ∧
      (∀ kc, keyCodeWin (getHkInfo modifier key).2.1 = some kc →
        (mapLookup (Register st1 modifier key n osOk).1.registeredHotkey
            (hkKey modifier key)).map HK.hotkeyId = some (st1.hotkeyId + 1) ∧
          ((Register st1 modifier key n osOk).2 = none ↔ osOk = true)) := by
  constructor
  · unfold Register
    cases h : keyCodeWin (getHkInfo modifier key).2.1 with
    | none => simp [h]
    | some kc => cases osOk <;> simp [h, HK.register]
  · intro kc h
    unfold Register
    cases osOk <;> simp [h, HK.register, hkKey, mapLookup_insert]

/-- Witness for the amended C2 theorem: a first registration of "cs_z"
stores the handle with registration id 1 under the normalized key. -/
theorem c2_amended_witness :
    (mapLookup (Register st0 "cs_z" "" 1 true).1.registeredHotkey (hkKey "cs_z" "")).map
      HK.hotkeyId = some 1 :=
  ((c2_amended st0 st0 "cs_z" "" 1 true).2 0x5A (by decide)).1

/-- Claim C3 (counterexample): when the OS-level registration attempt for
"cs_z" fails, Register returns the OS error but the registry still holds
an entry for the identity — the handle inserted before the attempt, with
registered = false — refuting "no entry for that identity remains" and
"only on success is the entry inserted". -/
theorem c3_counterexample :
    (Register st0 "cs_z" "" 1 false).2 = some GoError.osError ∧
      mapLookup (Register st0 "cs_z" "" 1 false).1.registeredHotkey "cszdown" ≠ none ∧
      (mapLookup (Register st0 "cs_z" "" 1 false).1.registeredHotkey "cszdown").map
          HK.registered = some false := by
  decide

/-- Claim C3 (amended): Register inserts the registry entry before the
OS-level attempt.  When the attempt fails, the worker is torn down (the
cancellation signal is closed) and the handle stays unregistered before
the error is returned, but the registry entry is not removed: it remains
in the registry holding the unregistered handle. -/
theorem c3_amended (st : GState) (modifier key : String) (n : Nat) (kc : Nat)
    (h : keyCodeWin (getHkInfo modifier key).2.1 = some kc) :
    (Register st modifier key n false).2 = some GoError.osError ∧
      ∃ hk, mapLookup (Register st modifier key n false).1.registeredHotkey
          (hkKey modifier key) = some hk ∧ hk.registered = false ∧ hk.canceled = true := by
  unfold Register
  simp [h, HK.register, hkKey, mapLookup_insert]

/-- Witness for the amended C3 theorem at the concrete identity "cs_z". -/
theorem c3_amended_witness :
    (Register st0 "cs_z" "" 1 false).2 = some GoError.osError ∧
      ∃ hk, mapLookup (Register st0 "cs_z" "" 1 false).1.registeredHotkey
          (hkKey "cs_z" "") = some hk ∧ hk.registered = false ∧ hk.canceled = true :=
  c3_amended st0 "cs_z" "" 1 0x5A (by decide)

/-- Claim C4 (counterexample): after a failed OS registration of "cs_z"
the registry still holds the handle with registered = false; Unregister on
that identity then surfaces the NotRegistered error even though the OS
release report parameter says the hotkey was held (true) — indeed the
source discards that report — so NotRegistered does not arise only from
the OS release step reporting not-held. -/
theorem c4_counterexample :
    (Unregister (Register st0 "cs_z" "" 1 false).1 "cs_z" "" true).2 =
      some GoError.notRegistered := by
  decide

/-- Claim C4 (amended): Unregister's outcome is entirely independent of
what the OS release step reports (the source discards the
win.UnregisterHotKey result); it fails with NotRegistered exactly when the
registry holds an entry for the identity whose handle's registered flag is
false, and an Unregister on an identity with no entry is a success that
leaves the state unchanged. -/
theorem c4_amended (st : GState) (modifier key : String) (r r' : Bool) :
    Unregister st modifier key r = Unregister st modifier key r' ∧
      ((Unregister st modifier key r).2 = some GoError.notRegistered ↔
        (mapLookup st.registeredHotkey (hkKey modifier key)).map HK.registered = some false) ∧
      (mapLookup st.registeredHotkey (hkKey modifier key) = none →
        Unregister st modifier key r = (st, none)) := by
  unfold Unregister
  cases h : mapLookup st.registeredHotkey (hkKey modifier key) with
  | none => simp [h]
  | some hk => cases hr : hk.registered <;> simp [h, HK.unregister, hr]

/-- Witness for the amended C4 theorem: the NotRegistered error at the
state left by a failed registration, with the OS report parameter false. -/
theorem c4_amended_witness :
    (Unregister (Register st0 "cs_z" "" 1 false).1 "cs_z" "" false).2 =
      some GoError.notRegistered :=
  (c4_amended (Register st0 "cs_z" "" 1 false).1 "cs_z" "" false true).2.1.mpr (by decide)

/-- Claim C7 (confirmed): Unregister on an identity with no registry entry
returns success with the state unchanged, and calling it twice
consecutively returns success both times. -/
theorem c7_unregister_absent_idempotent (st : GState) (modifier key : String) (r1 r2 : Bool)
    (h : mapLookup st.registeredHotkey (hkKey modifier key) = none) :
    Unregister st modifier key r1 = (st, none) ∧
      Unregister (Unregister st modifier key r1).1 modifier key r2 = (st, none) := by
  have h1 : Unregister st modifier key r1 = (st, none) := by unfold Unregister; simp [h]
  refine ⟨h1, ?_⟩
  rw [h1]
  unfold Unregister
  simp [h]

/-- Witness for the C7 theorem at the empty registry and identity "cs_z". -/
theorem c7_witness :
    Unregister st0 "cs_z" "" true = (st0, none) ∧
      Unregister (Unregister st0 "cs_z" "" true).1 "cs_z" "" true = (st0, none) :=
  c7_unregister_absent_idempotent st0 "cs_z" "" true true rfl

/-- Claim C8 (confirmed): the handle-level register method called while
the handle's registered flag is already true returns the
already-registered error and changes nothing — the handle and the global
counter are returned untouched, so the existing OS-level registration is
never silently replaced. -/
theorem c8_register_rejected_when_registered (hk : HK) (nextId : Nat) (osOk : Bool) :
    HK.register { hk with registered := true } nextId osOk =
      ({ hk with registered := true }, nextId, some GoError.alreadyRegistered) := by
  simp [HK.register]

/-! ## Event-loop worker and edge detector (win.go, handle) -/

/-- wmHotkey message code. -/
def wmHotkey : Nat := 0x0312

/-- wmQuit message code. -/
def wmQuit : Nat := 0x0012

/-- The environment of one iteration of the worker's polling loop: whether
PeekMessage reports a pending message, the Boolean result of GetMessage,
the retrieved message code, whether a closure is pending on the funcs
channel, and — for the case where both the funcs case and the canceled
case of the select are ready — whether the Go runtime picks the funcs
case (sel = true) or the canceled case. -/
structure TickIn where
  peek : Bool
  getOk : Bool
  msg : Nat
  cmdPending : Bool
  sel : Bool
  deriving DecidableEq

/-- The result of one iteration of the worker loop: the loop returns, or
it continues (the Boolean records whether it serviced a command from the
funcs channel this tick). -/
inductive LoopRes where
  | exit : LoopRes
  | cont : Bool → LoopRes
  deriving DecidableEq

/-- One iteration of the worker's polling loop in handle (win.go): when no
message is pending, the select either runs one pending closure, observes
the closed canceled channel and returns, or falls to the default case and
continues; when a message is pending, a failing GetMessage returns, a
wmHotkey message is dispatched to the edge detector, a wmQuit message
returns, and any other message falls through the switch. -/
def mainTick (canceled : Bool) (i : TickIn) : LoopRes :=
  if !i.peek then
    if i.cmdPending && (!canceled || i.sel) then LoopRes.cont true
    else if canceled then LoopRes.exit
    else LoopRes.cont false
  else if !i.getOk then LoopRes.exit
  else if i.msg = wmHotkey then LoopRes.cont false
  else if i.msg = wmQuit then LoopRes.exit
  else LoopRes.cont false

/-- The mutable state shared between a worker's main loop and its
release-poll sub-tasks: the edge-detector flags keyDown, keyUp, keyPress
of handle, the number of live release-poll sub-tasks spawned by the
down/press branch and by the up branch, and whether the canceled channel
has been closed. -/
structure WState where
  keyDown : Bool
  keyUp : Bool
  keyPress : Bool
  pressTasks : Nat
  upTasks : Nat
  canceled : Bool
  deriving DecidableEq

/-- The resting state: all flags clear, no sub-task live. -/
def wIdle : WState :=
  { keyDown := false, keyUp := false, keyPress := false, pressTasks := 0, upTasks := 0,
    canceled := false }

/-- Events of the interleaved execution of a worker and its sub-tasks:
the main loop dispatches a wmHotkey message (interrupt); one live
release-poll sub-task of the down/press kind polls GetAsyncKeyState and
reads 0 exactly when released is true; likewise for the up kind; and the
injected unregister closure runs on the worker, closing the canceled
channel. -/
inductive Ev where
  | interrupt : Ev
  | pressTick : Bool → Ev
  | upTick : Bool → Ev
  | unregCancel : Ev
  deriving DecidableEq

/-- Observable actions of one step: invoking Callbacks[0], invoking
Callbacks[1], or the fmt.Println defaults of the three branches (the
"... start" print, the "... end" print, and the plain print). -/
inductive Out where
  | cb0 : Out
  | cb1 : Out
  | printStart : Out
  | printEnd : Out
  | printPlain : Out
  deriving DecidableEq

/-- One step of the interleaved execution, for a hotkey whose Signal is
sig and whose Callbacks slice has length nCb, translated from the wmHotkey
case of handle and the two release-poll goroutine bodies in win.go.  Note
that the sub-task bodies poll only GetAsyncKeyState: they never read the
canceled channel. -/
def step (sig : String) (nCb : Nat) (st : WState) : Ev → WState × List Out
  | Ev.interrupt =>
    if sig = "down" ∨ sig = "press" then
      if st.keyDown then (st, [])
      else
        ({ st with
            keyDown := true,
            keyPress := (if sig = "press" then true else st.keyPress),
            pressTasks := st.pressTasks + 1 },
          if 0 < nCb then [Out.cb0]
          else if sig = "press" then [Out.printStart] else [Out.printPlain])
    else if sig = "up" then
      if st.keyUp then (st, [])
      else ({ st with keyUp := true, upTasks := st.upTasks + 1 }, [])
    else (st, [])
  | Ev.pressTick released =>
    if st.pressTasks = 0 then (st, [])
    else if released then
      ({ st with keyDown := false, keyPress := false, pressTasks := st.pressTasks - 1 },
        if st.keyPress then (if 1 < nCb then [Out.cb1] else [Out.printEnd]) else [])
    else (st, [])
  | Ev.upTick released =>
    if st.upTasks = 0 then (st, [])
    else if released then
      ({ st with keyUp := false, upTasks := st.upTasks - 1 },
        if 0 < nCb then [Out.cb0] else [Out.printPlain])
    else (st, [])
  | Ev.unregCancel => ({ st with canceled := true }, [])

/-- Runs a list of events from a state, returning the final state and the
per-step output lists. -/
def run (sig : String) (nCb : Nat) : WState → List Ev → WState × List (List Out)
  | st, [] => (st, [])
  | st, e :: es =>
    let p := step sig nCb st e
    let q := run sig nCb p.1 es
    (q.1, p.2 :: q.2)

/-- The per-step output lists of a run. -/
def runOuts (sig : String) (nCb : Nat) (st : WState) (es : List Ev) : List (List Out) :=
  (run sig nCb st es).2

theorem step_pressTick_false (sig : String) (nCb : Nat) (st : WState) :
    step sig nCb st (Ev.pressTick false) = (st, []) := by
  simp [step]

theorem run_pressTick_false (sig : String) (nCb : Nat) (st : WState) (k : Nat) (es : List Ev) :
    run sig nCb st (List.replicate k (Ev.pressTick false) ++ es) =
      ((run sig nCb st es).1, List.replicate k [] ++ (run sig nCb st es).2) := by
  induction k with
  | zero => simp
  | succ m ih => simp [List.replicate_succ, run, step_pressTick_false, ih]

theorem run_cons (sig : String) (nCb : Nat) (st : WState) (e : Ev) (es : List Ev) :
    run sig nCb st (e :: es) =
      ((run sig nCb (step sig nCb st e).1 es).1,
        (step sig nCb st e).2 :: (run sig nCb (step sig nCb st e).1 es).2) := rfl

/-- Claim C9 (confirmed): one iteration of the worker's message-pump loop
exits exactly when a pending message is retrieved and it is wmQuit, when
GetMessage itself fails, or when no message is pending and the select
observes the closed cancellation signal (that is, it does not pick a
pending command instead); in every other case the loop continues, and a
tick services a command only when no message is pending and one is
pending on the funcs channel — at most one per tick by construction. -/
theorem c9_loop_exit_conditions (canceled : Bool) (i : TickIn) :
    (mainTick canceled i = LoopRes.exit ↔
      ((i.peek = true ∧ i.getOk = false) ∨
        (i.peek = true ∧ i.getOk = true ∧ i.msg = wmQuit) ∨
        (i.peek = false ∧ canceled = true ∧ ¬(i.cmdPending = true ∧ i.sel = true)))) ∧
      (mainTick canceled i = LoopRes.cont true → i.peek = false ∧ i.cmdPending = true) := by
  obtain ⟨peek, getOk, msg, cmdPending, sel⟩ := i
  cases peek <;> cases getOk <;> cases cmdPending <;> cases sel <;> cases canceled <;>
    simp [mainTick, wmHotkey, wmQuit] <;> split_ifs <;> simp_all

/-- Witness for the C9 theorem: with no message pending, no command
pending and the cancellation signal closed, the loop exits. -/
theorem c9_witness :
    mainTick true { peek := false, getOk := true, msg := 0, cmdPending := false, sel := false } =
      LoopRes.exit :=
  (c9_loop_exit_conditions true
      { peek := false, getOk := true, msg := 0, cmdPending := false, sel := false }).1.mpr
    (Or.inr (Or.inr (by decide)))

/-- Claim C6 (confirmed): a raw interrupt message arriving while the edge
detector is already in the held state — keyDown set for the down and
press kinds, keyUp set for the up kind — is ignored: the step emits no
callback and no print, spawns no release-poll sub-task, and leaves the
state exactly unchanged. -/
theorem c6_interrupt_debounced (nCb : Nat) (st : WState) :
    step "down" nCb { st with keyDown := true } Ev.interrupt =
        ({ st with keyDown := true }, []) ∧
      step "press" nCb { st with keyDown := true } Ev.interrupt =
        ({ st with keyDown := true }, []) ∧
      step "up" nCb { st with keyUp := true } Ev.interrupt =
        ({ st with keyUp := true }, []) := by
  refine ⟨?_, ?_, ?_⟩ <;> simp [step]

/-- Claim C5 (confirmed): for a press hotkey, one interrupt followed by
any number of release polls that still see the key held and then one poll
that detects the release produces: the primary action exactly once, at the
interrupt step (Callbacks[0] when the slice is non-empty, else the default
print), silence at every intermediate poll, and the secondary action
exactly once, at the step detecting the release and never before it
(Callbacks[1] when present, else the default print). -/
theorem c5_press_edge (nCb k : Nat) :
    runOuts "press" nCb wIdle
        (Ev.interrupt :: (List.replicate k (Ev.pressTick false) ++ [Ev.pressTick true])) =
      (if 0 < nCb then [Out.cb0] else [Out.printStart]) ::
        (List.replicate k [] ++ [[if 1 < nCb then Out.cb1 else Out.printEnd]]) := by
  have hstep : step "press" nCb wIdle Ev.interrupt =
      (⟨true, false, true, 1, 0, false⟩, if 0 < nCb then [Out.cb0] else [Out.printStart]) := by
    simp [step, wIdle]
  have hlast : run "press" nCb (⟨true, false, true, 1, 0, false⟩ : WState) [Ev.pressTick true] =
      (⟨false, false, false, 0, 0, false⟩, [[if 1 < nCb then Out.cb1 else Out.printEnd]]) := by
    simp [run, step]
    split_ifs <;> rfl
  unfold runOuts
  rw [run_cons, hstep]
  simp only [run_pressTick_false, hlast]

/-- Claim C1 (counterexample): a press hotkey with two callbacks, at the
trace interrupt ; unregister-closure ; release-detecting poll.  After the
second event the cancellation signal is closed (so Unregister has
returned), yet the third event — the still-live release-poll sub-task
detecting the release — invokes Callbacks[1]: a callback of the hotkey
fires after Unregister returned, refuting the claim that the sub-task
observes the cancellation signal and exits without invoking a callback. -/
theorem c1_counterexample :
    (run "press" 2 wIdle [Ev.interrupt, Ev.unregCancel]).1.canceled = true ∧
      (step "press" 2 (run "press" 2 wIdle [Ev.interrupt, Ev.unregCancel]).1
          (Ev.pressTick true)).2 = [Out.cb1] ∧
      runOuts "press" 2 wIdle [Ev.interrupt, Ev.unregCancel, Ev.pressTick true] =
        [[Out.cb0], [], [Out.cb1]] := by
  decide

/-- Claim C1 (amended): unregistration closes the cancellation signal and
the worker's main poll loop does observe it — a tick with no pending
message and no pending command exits — but an outstanding release-poll
sub-task does not observe it: a sub-task step behaves identically whether
or not the signal is closed (the loop polls only GetAsyncKeyState), so a
release detected after Unregister returns still invokes the corresponding
callback. -/
theorem c1_amended (sig : String) (nCb : Nat) (st : WState) (r getOk sel : Bool) (msg : Nat) :
    mainTick true { peek := false, getOk := getOk, msg := msg, cmdPending := false, sel := sel } =
        LoopRes.exit ∧
      step sig nCb { st with canceled := true } (Ev.pressTick r) =
        ({ (step sig nCb { st with canceled := false } (Ev.pressTick r)).1 with
            canceled := true },
          (step sig nCb { st with canceled := false } (Ev.pressTick r)).2) ∧
      step sig nCb { st with canceled := true } (Ev.upTick r) =
        ({ (step sig nCb { st with canceled := false } (Ev.upTick r)).1 with
            canceled := true },
          (step sig nCb { st with canceled := false } (Ev.upTick r)).2) := by
  obtain ⟨kd, ku, kp, pt, ut, c⟩ := st
  refine ⟨by simp [mainTick], ?_, ?_⟩ <;> cases r <;> simp [step] <;> split_ifs <;> rfl

end GoHotkey
